import Mathlib

/-!
Shallow embedding of `src/webapp.py` (the Schiphol wind-direction monitor).

The program's non-trivial logic is three functions:
  * `get_token` — reads the `KNMI_EDR_TOKEN` secret, raising `RuntimeError`
    when it is missing or empty (Python truthiness of the value);
  * `mask_required` — the threshold decision on an optional bearing;
  * `get_latest_dd_and_measured_time` — the authenticated fetch plus the
    backward scan over the coverage/domain JSON structure.

Python values flowing through the scan are modelled by an inductive `Json`
type; Python's `dict.get`, `or`, `len`, indexing, truthiness and the
exceptions they can raise (`AttributeError`, `TypeError`, `IndexError`,
`ValueError`) are modelled explicitly, so that "the function raises" is a
statable proposition.  Machine floats are modelled by `ℚ` (the dd values the
program handles are decimal degree readings; no float-rounding behaviour is
relevant to any claim).  Timestamps are carried as the ISO strings the API
returns; `datetime.fromisoformat` is modelled as the identity on the
normalised string (its validation of the string is not modelled — every
claim concerns either well-formed timestamps or payloads that never reach
the parse).  `float(v)` applied to a *string* is likewise modelled as a
`ValueError` (numeric-string parsing is not modelled; upstream dd values
are JSON numbers or nulls).

The single side effect — the outbound HTTP request — is modelled by
threading an oracle `net : Request → HttpOutcome` and returning, next to
the `Except` result, the list of requests actually issued.
-/

/-- A Python value as it appears in the decoded JSON response (plus the
`None`/bool/str values the surrounding code manipulates). -/
inductive Json where
  | null : Json
  | bool : Bool → Json
  | num : ℚ → Json
  | str : String → Json
  | arr : List Json → Json
  | obj : List (String × Json) → Json

/-- The exceptions the embedded code can raise. `runtimeError` carries the
message of the `raise RuntimeError(...)` in `get_token`; `httpError` carries
the status code `raise_for_status` complained about. -/
inductive Err where
  | runtimeError : String → Err
  | httpError : Nat → Err
  | timeoutError : Err
  | attrError : Err
  | typeError : Err
  | indexError : Err
  | valueError : Err
deriving DecidableEq

/-- Python truthiness of a value (`if not x`). -/
def truthy : Json → Bool
  | Json.null => false
  | Json.bool b => b
  | Json.num q => decide (q ≠ 0)
  | Json.str s => !s.toList.isEmpty
  | Json.arr xs => !xs.isEmpty
  | Json.obj fs => !fs.isEmpty

/-- Python `a or b`: `a` when truthy, else `b`. -/
def pyOr (a b : Json) : Json := if truthy a then a else b

/-- Python `d.get(key, default)`: a key lookup on a dict; calling `.get` on a
non-dict raises `AttributeError`. -/
def pyGetD (j : Json) (key : String) (default : Json) : Except Err Json :=
  match j with
  | Json.obj fs => Except.ok ((fs.lookup key).getD default)
  | _ => Except.error Err.attrError

/-- Python `len(x)` for the values the scan can meet. -/
def pyLen : Json → Except Err Nat
  | Json.arr xs => Except.ok xs.length
  | Json.str s => Except.ok s.toList.length
  | Json.obj fs => Except.ok fs.length
  | _ => Except.error Err.typeError

/-- Python `x[i]` for a non-negative index: list indexing (out of bounds
raises `IndexError`), string indexing yields a one-character string, and
anything else raises. -/
def pyIndex (j : Json) (i : Nat) : Except Err Json :=
  match j with
  | Json.arr xs =>
      match xs.get? i with
      | some v => Except.ok v
      | none => Except.error Err.indexError
  | Json.str s =>
      match s.toList.get? i with
      | some c => Except.ok (Json.str (String.singleton c))
      | none => Except.error Err.indexError
  | _ => Except.error Err.typeError

/-- Python `float(v)`.  Numeric-string parsing is not modelled (the dd
series holds JSON numbers or nulls), so a string argument is a
`ValueError`; lists and dicts raise `TypeError`. -/
def pyFloat : Json → Except Err ℚ
  | Json.num q => Except.ok q
  | Json.bool b => Except.ok (if b then 1 else 0)
  | _ => Except.error Err.valueError

/-- Python `v is None`. -/
def isNone : Json → Bool
  | Json.null => true
  | _ => false

/-- Python `reversed(x)` materialised as a list of the iterated values:
lists iterate their elements, strings their characters, dicts their keys,
all in reverse; anything else raises `TypeError`. -/
def pyReversed : Json → Except Err (List Json)
  | Json.arr xs => Except.ok xs.reverse
  | Json.str s => Except.ok ((s.toList.map fun c => Json.str (String.singleton c)).reverse)
  | Json.obj fs => Except.ok ((fs.map fun p => Json.str p.1).reverse)
  | _ => Except.error Err.typeError

/-- Python `s.replace("Z", "+00:00")` on a value that must be a string
(`.replace` on a non-string raises `AttributeError`). -/
def pyReplaceZ (j : Json) : Except Err String :=
  match j with
  | Json.str s => Except.ok (s.replace "Z" "+00:00")
  | _ => Except.error Err.attrError

/-- Timestamps are carried as their ISO-8601 strings. -/
abbrev Timestamp := String

/-- Embedding of `datetime.fromisoformat`, modelled as the identity on the already
normalised string (validation of the format is not modelled). -/
def fromisoformat (s : String) : Timestamp := s

-- Threshold constants of this deployment (webapp.py lines 10-11).

def EAST_MIN : ℚ := 90
def SOUTH_MAX : ℚ := 180

/-- Embedding of `mask_required(dd)` (webapp.py lines 19-22): `False` on `None` or a
non-positive bearing, otherwise the closed-interval test
`EAST_MIN <= dd <= SOUTH_MAX`. -/
def mask_required : Option ℚ → Bool
  | none => false
  | some dd => if dd ≤ 0 then false else decide (EAST_MIN ≤ dd ∧ dd ≤ SOUTH_MAX)

/-- The secrets store `st.secrets`, modelled as an association list. -/
abbrev Secrets := List (String × String)

/-- Embedding of `get_token()` (webapp.py lines 13-17): look up `KNMI_EDR_TOKEN`; a
missing or falsy (empty) value raises `RuntimeError`. -/
def get_token (secrets : Secrets) : Except Err String :=
  match secrets.lookup "KNMI_EDR_TOKEN" with
  | none => Except.error (Err.runtimeError "KNMI_EDR_TOKEN ontbreekt. Zet die als environment variable in PowerShell.")
  | some t =>
      if t.isEmpty then
        Except.error (Err.runtimeError "KNMI_EDR_TOKEN ontbreekt. Zet die als environment variable in PowerShell.")
      else Except.ok t

/-- The outbound HTTP request, with the fields the claims mention: the
station the URL is scoped to, the bearer token header, and the `timeout=`
argument passed to `requests.get`. -/
structure Request where
  location_id : String
  authorization : String
  timeoutSeconds : Nat
deriving DecidableEq

/-- What the network does with a request: time out, or answer with a status
code and a decoded JSON body. -/
inductive HttpOutcome where
  | timeout : HttpOutcome
  | response : Nat → Json → HttpOutcome

/-- Embedding of `requests.Response.raise_for_status()`: raises `HTTPError` exactly on a
4xx or 5xx status code. -/
def raise_for_status (status : Nat) : Except Err Unit :=
  if 400 ≤ status ∧ status ≤ 599 then Except.error (Err.httpError status) else Except.ok ()

/-- The result triple `(dd, measured_at, retrieved_at)` the fetch returns. -/
abbrev FetchResult := Option ℚ × Option Timestamp × Timestamp

/-- The body of a loop iteration that met a non-null reading `v` at index
`i` (webapp.py lines 63-64): build
`(float(v), fromisoformat(times[i].replace("Z","+00:00")))` in the source's
evaluation order (`measured_at` on line 63 before `float(v)` on line 64). -/
def scanHit (times : Json) (i : Nat) (v : Json) : Except Err (ℚ × Timestamp) :=
  match pyIndex times i with
  | Except.error e => Except.error e
  | Except.ok tj =>
    match pyReplaceZ tj with
    | Except.error e => Except.error e
    | Except.ok s =>
      let measured_at := fromisoformat s
      match pyFloat v with
      | Except.error e => Except.error e
      | Except.ok q => Except.ok (q, measured_at)

/-- The inner backward loop (webapp.py lines 59-64): from index `i` down to
`0`, skip `None` readings, and on the first non-null reading run `scanHit`.
`Except.ok none` means the loop fell through. -/
def scanIdx (values times : Json) : Nat → Except Err (Option (ℚ × Timestamp))
  | 0 =>
    match pyIndex values 0 with
    | Except.error e => Except.error e
    | Except.ok v =>
      if isNone v then Except.ok none
      else
        match scanHit times 0 v with
        | Except.error e => Except.error e
        | Except.ok r => Except.ok (some r)
  | j + 1 =>
    match pyIndex values (j + 1) with
    | Except.error e => Except.error e
    | Except.ok v =>
      if isNone v then scanIdx values times j
      else
        match scanHit times (j + 1) v with
        | Except.error e => Except.error e
        | Except.ok r => Except.ok (some r)

/-- One iteration of the outer loop's extraction (webapp.py lines 46-53):
compute the `values` and `times` containers of a coverage with every key
defaulted as the source defaults it. -/
def coverageSeries (c : Json) : Except Err (Json × Json) :=
  match pyGetD c "ranges" (Json.obj []) with
  | Except.error e => Except.error e
  | Except.ok ranges0 =>
    let ranges := pyOr ranges0 (Json.obj [])
    match pyGetD ranges "dd" Json.null with
    | Except.error e => Except.error e
    | Except.ok dd0 =>
      let dd_range := pyOr dd0 (Json.obj [])
      match pyGetD dd_range "values" Json.null with
      | Except.error e => Except.error e
      | Except.ok v1 =>
        match pyGetD dd_range "data" Json.null with
        | Except.error e => Except.error e
        | Except.ok v2 =>
          let values := pyOr (pyOr v1 v2) (Json.arr [])
          match pyGetD c "domain" (Json.obj []) with
          | Except.error e => Except.error e
          | Except.ok domain0 =>
            let domain := pyOr domain0 (Json.obj [])
            match pyGetD domain "axes" (Json.obj []) with
            | Except.error e => Except.error e
            | Except.ok axes0 =>
              let axes := pyOr axes0 (Json.obj [])
              match pyGetD axes "t" (Json.obj []) with
              | Except.error e => Except.error e
              | Except.ok t0 =>
                let t_axis := pyOr t0 (Json.obj [])
                match pyGetD t_axis "values" Json.null with
                | Except.error e => Except.error e
                | Except.ok tv =>
                  let times := pyOr tv (Json.arr [])
                  Except.ok (values, times)

/-- The outer loop (webapp.py lines 45-64) over the already reversed
coverage list: skip coverages with an empty (falsy) values or times
container, otherwise run the backward scan from
`min(len(values), len(times)) - 1`. -/
def scanCoverages (retrieved_at : Timestamp) : List Json → Except Err FetchResult
  | [] => Except.ok (none, none, retrieved_at)
  | c :: rest =>
    match coverageSeries c with
    | Except.error e => Except.error e
    | Except.ok (values, times) =>
      if !truthy values || !truthy times then scanCoverages retrieved_at rest
      else
        match pyLen values with
        | Except.error e => Except.error e
        | Except.ok nv =>
          match pyLen times with
          | Except.error e => Except.error e
          | Except.ok nt =>
            match scanIdx values times (min nv nt - 1) with
            | Except.error e => Except.error e
            | Except.ok (some (q, t)) => Except.ok (some q, some t, retrieved_at)
            | Except.ok none => scanCoverages retrieved_at rest

/-- The body-processing part of `get_latest_dd_and_measured_time`
(webapp.py lines 41-66): read `coverages` with `[]` as default, return the
data-absent triple when it is falsy, otherwise walk it in reverse. -/
def parseAndScan (cov : Json) (retrieved_at : Timestamp) : Except Err FetchResult :=
  match pyGetD cov "coverages" (Json.arr []) with
  | Except.error e => Except.error e
  | Except.ok coverages =>
    if !truthy coverages then Except.ok (none, none, retrieved_at)
    else
      match pyReversed coverages with
      | Except.error e => Except.error e
      | Except.ok cs => scanCoverages retrieved_at cs

/-- Embedding of `get_latest_dd_and_measured_time(location_id, ...)` (webapp.py lines
25-66).  `retrieved_at` abstracts `datetime.now(timezone.utc)`; `net` is
the network oracle.  Besides the result (or the exception raised), the list
of HTTP requests actually issued during the call is returned, so that the
side-effect claims are statable. -/
def get_latest_dd_and_measured_time (secrets : Secrets) (location_id : String)
    (retrieved_at : Timestamp) (net : Request → HttpOutcome) :
    Except Err FetchResult × List Request :=
  match get_token secrets with
  | Except.error e => (Except.error e, [])
  | Except.ok token =>
    let req : Request := ⟨location_id, token, 30⟩
    match net req with
    | HttpOutcome.timeout => (Except.error Err.timeoutError, [req])
    | HttpOutcome.response status body =>
      match raise_for_status status with
      | Except.error e => (Except.error e, [req])
      | Except.ok _ => (parseAndScan body retrieved_at, [req])

-- Canonical well-formed payloads, used to state the claims about the scan.

/-- A well-formed coverage entry with the canonical
`ranges.dd.values` / `domain.axes.t.values` structure of the upstream API. -/
def mkCoverage (vs ts : List Json) : Json :=
  Json.obj [("ranges", Json.obj [("dd", Json.obj [("values", Json.arr vs)])]),
            ("domain", Json.obj [("axes", Json.obj [("t", Json.obj [("values", Json.arr ts)])])])]

/-- A well-formed payload: a `coverages` list of canonical coverages, each
given by its dd values and its time axis. -/
def mkPayload (covs : List (List Json × List Json)) : Json :=
  Json.obj [("coverages", Json.arr (covs.map fun p => mkCoverage p.1 p.2))]

/-- The `ranges` subtree of a canonical coverage. -/
def rangesPart (vs : List Json) : Json :=
  Json.obj [("dd", Json.obj [("values", Json.arr vs)])]

/-- The `domain` subtree of a canonical coverage. -/
def domainPart (ts : List Json) : Json :=
  Json.obj [("axes", Json.obj [("t", Json.obj [("values", Json.arr ts)])])]

/-- One of the keys the scan reads from a coverage entry whose absence the
code must tolerate (webapp.py lines 46-53). -/
inductive MissingKey where
  | rangesKey : MissingKey
  | ddKey : MissingKey
  | valuesDataKeys : MissingKey
  | domainKey : MissingKey
  | axesKey : MissingKey
  | tKey : MissingKey
  | tValuesKey : MissingKey

/-- A coverage entry that is canonical except that the given key is
missing (for `valuesDataKeys`, both of the alternative keys `values` and
`data` are missing). -/
def mkCoverageMissing : MissingKey → List Json → List Json → Json
  | MissingKey.rangesKey, _, ts => Json.obj [("domain", domainPart ts)]
  | MissingKey.ddKey, _, ts =>
      Json.obj [("ranges", Json.obj []), ("domain", domainPart ts)]
  | MissingKey.valuesDataKeys, _, ts =>
      Json.obj [("ranges", Json.obj [("dd", Json.obj [])]), ("domain", domainPart ts)]
  | MissingKey.domainKey, vs, _ => Json.obj [("ranges", rangesPart vs)]
  | MissingKey.axesKey, vs, _ =>
      Json.obj [("ranges", rangesPart vs), ("domain", Json.obj [])]
  | MissingKey.tKey, vs, _ =>
      Json.obj [("ranges", rangesPart vs), ("domain", Json.obj [("axes", Json.obj [])])]
  | MissingKey.tValuesKey, vs, _ =>
      Json.obj [("ranges", rangesPart vs),
                ("domain", Json.obj [("axes", Json.obj [("t", Json.obj [])])])]

-- Helper lemmas about the embedded primitives and the scan.

theorem coverageSeries_mk (vs ts : List Json) :
    coverageSeries (mkCoverage vs ts) = Except.ok (Json.arr vs, Json.arr ts) := by
  cases vs <;> cases ts <;> rfl

theorem pyGetD_error (j : Json) (key : String) (d : Json) (e : Err)
    (h : pyGetD j key d = Except.error e) : e = Err.attrError := by
  cases j <;> simp [pyGetD] at h <;> exact h.symm

theorem pyLen_error (j : Json) (e : Err) (h : pyLen j = Except.error e) :
    e = Err.typeError := by
  cases j <;> simp [pyLen] at h <;> exact h.symm

theorem pyReversed_error (j : Json) (e : Err) (h : pyReversed j = Except.error e) :
    e = Err.typeError := by
  cases j <;> simp [pyReversed] at h <;> exact h.symm

theorem pyFloat_ne_index_error (v : Json) : pyFloat v ≠ Except.error Err.indexError := by
  cases v <;> simp [pyFloat]

theorem pyReplaceZ_ne_index_error (j : Json) :
    pyReplaceZ j ≠ Except.error Err.indexError := by
  cases j <;> simp [pyReplaceZ]

theorem pyIndex_ne_index_error (j : Json) (n i : Nat)
    (hlen : pyLen j = Except.ok n) (hi : i < n) :
    pyIndex j i ≠ Except.error Err.indexError := by
  cases j with
  | arr xs =>
      simp only [pyLen, Except.ok.injEq] at hlen
      subst hlen
      simp [pyIndex, List.getElem?_eq_getElem hi]
  | str s =>
      simp only [pyLen, Except.ok.injEq] at hlen
      subst hlen
      have hi' : i < s.data.length := hi
      simp [pyIndex, List.getElem?_eq_getElem hi']
  | obj fs => simp [pyIndex]
  | null => simp [pyLen] at hlen
  | bool b => simp [pyLen] at hlen
  | num q => simp [pyLen] at hlen

theorem pyLen_pos_of_truthy (j : Json) (n : Nat)
    (ht : truthy j = true) (hlen : pyLen j = Except.ok n) : 1 ≤ n := by
  cases j with
  | arr xs =>
      simp only [pyLen, Except.ok.injEq] at hlen
      subst hlen
      cases xs with
      | nil => simp [truthy] at ht
      | cons a l => simp
  | str s =>
      simp only [pyLen, Except.ok.injEq] at hlen
      subst hlen
      cases hsl : s.toList with
      | nil => rw [truthy, hsl] at ht; simp at ht
      | cons a l => simp [hsl]
  | obj fs =>
      simp only [pyLen, Except.ok.injEq] at hlen
      subst hlen
      cases fs with
      | nil => simp [truthy] at ht
      | cons a l => simp
  | null => simp [pyLen] at hlen
  | bool b => simp [pyLen] at hlen
  | num q => simp [pyLen] at hlen

theorem get_token_error (s : Secrets) (e : Err) (h : get_token s = Except.error e) :
    e = Err.runtimeError
      "KNMI_EDR_TOKEN ontbreekt. Zet die als environment variable in PowerShell." := by
  unfold get_token at h
  cases hl : s.lookup "KNMI_EDR_TOKEN" with
  | none =>
      simp only [hl, Except.error.injEq] at h
      exact h.symm
  | some t =>
      simp only [hl] at h
      by_cases he : t.isEmpty = true
      · rw [if_pos he] at h
        simp only [Except.error.injEq] at h
        exact h.symm
      · rw [if_neg he] at h
        exact Except.noConfusion h

theorem raise_for_status_error (status : Nat) (e : Err)
    (h : raise_for_status status = Except.error e) : e = Err.httpError status := by
  unfold raise_for_status at h
  by_cases hc : 400 ≤ status ∧ status ≤ 599
  · rw [if_pos hc] at h
    simp only [Except.error.injEq] at h
    exact h.symm
  · rw [if_neg hc] at h
    exact Except.noConfusion h

theorem scanHit_eval (ts : List Json) (i : Nat) (q : ℚ) (s : String)
    (hts : ts[i]? = some (Json.str s)) :
    scanHit (Json.arr ts) i (Json.num q) =
      Except.ok (q, fromisoformat (s.replace "Z" "+00:00")) := by
  simp [scanHit, pyIndex, hts, pyReplaceZ, pyFloat]

theorem scanIdx_finds (vs ts : List Json) (k : Nat) (q : ℚ) (s : String)
    (hvk : vs[k]? = some (Json.num q)) (hts : ts[k]? = some (Json.str s)) :
    ∀ i, k ≤ i → (∀ j, k < j → j ≤ i → vs[j]? = some Json.null) →
      scanIdx (Json.arr vs) (Json.arr ts) i =
        Except.ok (some (q, fromisoformat (s.replace "Z" "+00:00"))) := by
  intro i
  induction i with
  | zero =>
      intro hk _
      have hk0 : k = 0 := Nat.le_zero.mp hk
      subst hk0
      simp [scanIdx, pyIndex, hvk, isNone, scanHit, hts, pyReplaceZ, pyFloat]
  | succ j ih =>
      intro hk hnull
      rcases Nat.lt_or_ge k (j + 1) with hlt | hge
      · have hj1 : vs[j + 1]? = some Json.null := hnull (j + 1) hlt (le_refl _)
        have hstep : scanIdx (Json.arr vs) (Json.arr ts) (j + 1) =
            scanIdx (Json.arr vs) (Json.arr ts) j := by
          simp [scanIdx, pyIndex, hj1, isNone]
        rw [hstep]
        exact ih (Nat.lt_succ_iff.mp hlt)
          (fun j' h1 h2 => hnull j' h1 (Nat.le_succ_of_le h2))
      · have hkj : k = j + 1 := Nat.le_antisymm hk hge
        subst hkj
        simp [scanIdx, pyIndex, hvk, isNone, scanHit, hts, pyReplaceZ, pyFloat]

theorem scanIdx_all_null (vs ts : List Json) :
    ∀ i, (∀ j, j ≤ i → vs[j]? = some Json.null) →
      scanIdx (Json.arr vs) (Json.arr ts) i = Except.ok none := by
  intro i
  induction i with
  | zero =>
      intro h
      simp [scanIdx, pyIndex, h 0 (le_refl 0), isNone]
  | succ j ih =>
      intro h
      have hstep : scanIdx (Json.arr vs) (Json.arr ts) (j + 1) =
          scanIdx (Json.arr vs) (Json.arr ts) j := by
        simp [scanIdx, pyIndex, h (j + 1) (le_refl _), isNone]
      rw [hstep]
      exact ih (fun j' hj' => h j' (Nat.le_succ_of_le hj'))

theorem scanHit_ne_index_error (times : Json) (nt i : Nat) (v : Json)
    (hlen : pyLen times = Except.ok nt) (hi : i < nt) :
    scanHit times i v ≠ Except.error Err.indexError := by
  cases hidx : pyIndex times i with
  | error e =>
      simp only [scanHit, hidx]
      have hne := pyIndex_ne_index_error times nt i hlen hi
      rw [hidx] at hne
      simpa using hne
  | ok tj =>
      simp only [scanHit, hidx]
      cases hrz : pyReplaceZ tj with
      | error e =>
          simp only [hrz]
          have hne := pyReplaceZ_ne_index_error tj
          rw [hrz] at hne
          simpa using hne
      | ok s =>
          simp only [hrz]
          cases hf : pyFloat v with
          | error e =>
              simp only [hf]
              have hne := pyFloat_ne_index_error v
              rw [hf] at hne
              simpa using hne
          | ok q => simp [hf]

theorem scanIdx_ne_index_error (values times : Json) (nv nt : Nat)
    (hv : pyLen values = Except.ok nv) (ht : pyLen times = Except.ok nt) :
    ∀ i, i < nv → i < nt → scanIdx values times i ≠ Except.error Err.indexError := by
  intro i
  induction i with
  | zero =>
      intro h1 h2
      cases hidx : pyIndex values 0 with
      | error e =>
          simp only [scanIdx, hidx]
          have hne := pyIndex_ne_index_error values nv 0 hv h1
          rw [hidx] at hne
          simpa using hne
      | ok v =>
          cases hn : isNone v with
          | true => simp [scanIdx, hidx, hn]
          | false =>
              cases hsc : scanHit times 0 v with
              | error e =>
                  simp only [scanIdx, hidx, hn]
                  simp only [hsc]
                  have hne := scanHit_ne_index_error times nt 0 v ht h2
                  rw [hsc] at hne
                  simpa using hne
              | ok r => simp [scanIdx, hidx, hn, hsc]
  | succ j ih =>
      intro h1 h2
      cases hidx : pyIndex values (j + 1) with
      | error e =>
          simp only [scanIdx, hidx]
          have hne := pyIndex_ne_index_error values nv (j + 1) hv h1
          rw [hidx] at hne
          simpa using hne
      | ok v =>
          cases hn : isNone v with
          | true =>
              have hstep : scanIdx values times (j + 1) = scanIdx values times j := by
                simp [scanIdx, hidx, hn]
              rw [hstep]
              exact ih (Nat.lt_of_succ_lt h1) (Nat.lt_of_succ_lt h2)
          | false =>
              cases hsc : scanHit times (j + 1) v with
              | error e =>
                  simp only [scanIdx, hidx, hn]
                  simp only [hsc]
                  have hne := scanHit_ne_index_error times nt (j + 1) v ht h2
                  rw [hsc] at hne
                  simpa using hne
              | ok r => simp [scanIdx, hidx, hn, hsc]

theorem coverageSeries_error_attr (c : Json) (e : Err)
    (h : coverageSeries c = Except.error e) : e = Err.attrError := by
  unfold coverageSeries at h
  cases h1 : pyGetD c "ranges" (Json.obj []) with
  | error e1 =>
      simp only [h1, Except.error.injEq] at h
      subst h
      exact pyGetD_error _ _ _ _ h1
  | ok ranges0 =>
      simp only [h1] at h
      cases h2 : pyGetD (pyOr ranges0 (Json.obj [])) "dd" Json.null with
      | error e2 =>
          simp only [h2, Except.error.injEq] at h
          subst h
          exact pyGetD_error _ _ _ _ h2
      | ok dd0 =>
          simp only [h2] at h
          cases h3 : pyGetD (pyOr dd0 (Json.obj [])) "values" Json.null with
          | error e3 =>
              simp only [h3, Except.error.injEq] at h
              subst h
              exact pyGetD_error _ _ _ _ h3
          | ok v1 =>
              simp only [h3] at h
              cases h4 : pyGetD (pyOr dd0 (Json.obj [])) "data" Json.null with
              | error e4 =>
                  simp only [h4, Except.error.injEq] at h
                  subst h
                  exact pyGetD_error _ _ _ _ h4
              | ok v2 =>
                  simp only [h4] at h
                  cases h5 : pyGetD c "domain" (Json.obj []) with
                  | error e5 =>
                      simp only [h5, Except.error.injEq] at h
                      subst h
                      exact pyGetD_error _ _ _ _ h5
                  | ok domain0 =>
                      simp only [h5] at h
                      cases h6 : pyGetD (pyOr domain0 (Json.obj [])) "axes" (Json.obj []) with
                      | error e6 =>
                          simp only [h6, Except.error.injEq] at h
                          subst h
                          exact pyGetD_error _ _ _ _ h6
                      | ok axes0 =>
                          simp only [h6] at h
                          cases h7 : pyGetD (pyOr axes0 (Json.obj [])) "t" (Json.obj []) with
                          | error e7 =>
                              simp only [h7, Except.error.injEq] at h
                              subst h
                              exact pyGetD_error _ _ _ _ h7
                          | ok t0 =>
                              simp only [h7] at h
                              cases h8 : pyGetD (pyOr t0 (Json.obj [])) "values" Json.null with
                              | error e8 =>
                                  simp only [h8, Except.error.injEq] at h
                                  subst h
                                  exact pyGetD_error _ _ _ _ h8
                              | ok tv =>
                                  simp only [h8] at h
                                  exact Except.noConfusion h

theorem scanCoverages_ne_index_error (r : Timestamp) :
    ∀ cs : List Json, scanCoverages r cs ≠ Except.error Err.indexError := by
  intro cs
  induction cs with
  | nil => simp [scanCoverages]
  | cons c rest ih =>
      cases hcs : coverageSeries c with
      | error e =>
          have he : e = Err.attrError := coverageSeries_error_attr c e hcs
          subst he
          simp [scanCoverages, hcs]
      | ok p =>
          obtain ⟨values, times⟩ := p
          cases hskip : (!truthy values || !truthy times) with
          | true =>
              have hstep : scanCoverages r (c :: rest) = scanCoverages r rest := by
                simp [scanCoverages, hcs, hskip]
              rw [hstep]
              exact ih
          | false =>
              have htv : truthy values = true := by
                cases hx : truthy values <;> cases hy : truthy times <;>
                  rw [hx, hy] at hskip <;> simp_all
              have htt : truthy times = true := by
                cases hx : truthy values <;> cases hy : truthy times <;>
                  rw [hx, hy] at hskip <;> simp_all
              cases hlv : pyLen values with
              | error e =>
                  have he : e = Err.typeError := pyLen_error _ _ hlv
                  subst he
                  simp [scanCoverages, hcs, hskip, hlv]
              | ok nv =>
                  cases hlt : pyLen times with
                  | error e =>
                      have he : e = Err.typeError := pyLen_error _ _ hlt
                      subst he
                      simp [scanCoverages, hcs, hskip, hlv, hlt]
                  | ok nt =>
                      have hnv : 1 ≤ nv := pyLen_pos_of_truthy values nv htv hlv
                      have hnt : 1 ≤ nt := pyLen_pos_of_truthy times nt htt hlt
                      cases hsi : scanIdx values times (min nv nt - 1) with
                      | error e =>
                          have hne := scanIdx_ne_index_error values times nv nt hlv hlt
                            (min nv nt - 1) (by omega) (by omega)
                          rw [hsi] at hne
                          simp only [scanCoverages, hcs, hskip, hlv, hlt, hsi]
                          simpa using hne
                      | ok o =>
                          cases o with
                          | none =>
                              have hstep : scanCoverages r (c :: rest) =
                                  scanCoverages r rest := by
                                simp [scanCoverages, hcs, hskip, hlv, hlt, hsi]
                              rw [hstep]
                              exact ih
                          | some pr =>
                              obtain ⟨q, t⟩ := pr
                              simp [scanCoverages, hcs, hskip, hlv, hlt, hsi]

theorem parseAndScan_ne_index_error (body : Json) (r : Timestamp) :
    parseAndScan body r ≠ Except.error Err.indexError := by
  cases hg : pyGetD body "coverages" (Json.arr []) with
  | error e =>
      have he : e = Err.attrError := pyGetD_error _ _ _ _ hg
      subst he
      simp [parseAndScan, hg]
  | ok coverages =>
      cases htr : truthy coverages with
      | false => simp [parseAndScan, hg, htr]
      | true =>
          cases hrv : pyReversed coverages with
          | error e =>
              have he : e = Err.typeError := pyReversed_error _ _ hrv
              subst he
              simp [parseAndScan, hg, htr, hrv]
          | ok cs =>
              have hstep : parseAndScan body r = scanCoverages r cs := by
                simp [parseAndScan, hg, htr, hrv]
              rw [hstep]
              exact scanCoverages_ne_index_error r cs

theorem scanCoverages_cons_skip (r : Timestamp) (c : Json) (rest : List Json)
    (values times : Json) (hcs : coverageSeries c = Except.ok (values, times))
    (hskip : (!truthy values || !truthy times) = true) :
    scanCoverages r (c :: rest) = scanCoverages r rest := by
  simp only [scanCoverages, hcs]
  rw [hskip, if_pos rfl]

theorem scanCoverages_cons_nonempty (r : Timestamp) (vs ts : List Json)
    (rest : List Json) (hv : vs ≠ []) (ht : ts ≠ []) :
    scanCoverages r (mkCoverage vs ts :: rest) =
      match scanIdx (Json.arr vs) (Json.arr ts) (min vs.length ts.length - 1) with
      | Except.error e => Except.error e
      | Except.ok (some (q, t)) => Except.ok (some q, some t, r)
      | Except.ok none => scanCoverages r rest := by
  have htv : truthy (Json.arr vs) = true := by
    cases vs with
    | nil => exact absurd rfl hv
    | cons a l => rfl
  have htt : truthy (Json.arr ts) = true := by
    cases ts with
    | nil => exact absurd rfl ht
    | cons b m => rfl
  simp only [scanCoverages, coverageSeries_mk]
  rw [htv, htt, if_neg (show ¬((!true || !true) = true) by decide)]
  simp only [pyLen]

theorem scanCoverages_skip_empty (r : Timestamp) (vs ts : List Json)
    (rest : List Json) (h : vs = [] ∨ ts = []) :
    scanCoverages r (mkCoverage vs ts :: rest) = scanCoverages r rest := by
  rcases h with h | h
  · subst h
    exact scanCoverages_cons_skip r _ rest _ _ (coverageSeries_mk [] ts)
      (by simp [truthy])
  · subst h
    exact scanCoverages_cons_skip r _ rest _ _ (coverageSeries_mk vs [])
      (by simp [truthy])

theorem coverageSeries_missing (m : MissingKey) (vs ts : List Json) :
    coverageSeries (mkCoverageMissing m vs ts) = Except.ok (Json.arr [], Json.arr ts) ∨
    coverageSeries (mkCoverageMissing m vs ts) = Except.ok (Json.arr vs, Json.arr []) := by
  cases m with
  | rangesKey => exact Or.inl (by cases ts <;> rfl)
  | ddKey => exact Or.inl (by cases ts <;> rfl)
  | valuesDataKeys => exact Or.inl (by cases ts <;> rfl)
  | domainKey => exact Or.inr (by cases vs <;> rfl)
  | axesKey => exact Or.inr (by cases vs <;> rfl)
  | tKey => exact Or.inr (by cases vs <;> rfl)
  | tValuesKey => exact Or.inr (by cases vs <;> rfl)

theorem scanCoverages_cons_missing (r : Timestamp) (m : MissingKey)
    (vs ts : List Json) (rest : List Json) :
    scanCoverages r (mkCoverageMissing m vs ts :: rest) = scanCoverages r rest := by
  rcases coverageSeries_missing m vs ts with h | h
  · exact scanCoverages_cons_skip r _ rest _ _ h (by simp [truthy])
  · exact scanCoverages_cons_skip r _ rest _ _ h (by simp [truthy])

theorem scanCoverages_all_null_of (r : Timestamp) :
    ∀ cs : List Json,
      (∀ c ∈ cs, ∃ vs ts : List Json, c = mkCoverage vs ts ∧
        ∀ i, i < min vs.length ts.length → vs[i]? = some Json.null) →
      scanCoverages r cs = Except.ok (none, none, r) := by
  intro cs
  induction cs with
  | nil => intro _; rfl
  | cons c rest ih =>
      intro h
      obtain ⟨vs, ts, rfl, hnull⟩ := h c (List.mem_cons_self _ _)
      have hrest := fun c' hc' => h c' (List.mem_cons_of_mem _ hc')
      cases vs with
      | nil => rw [scanCoverages_skip_empty r [] ts rest (Or.inl rfl)]; exact ih hrest
      | cons a l =>
          cases ts with
          | nil =>
              rw [scanCoverages_skip_empty r (a :: l) [] rest (Or.inr rfl)]
              exact ih hrest
          | cons b mm =>
              have hmin : 1 ≤ min (a :: l).length (b :: mm).length := by
                simp [Nat.le_min]
              have hscan := scanIdx_all_null (a :: l) (b :: mm)
                (min (a :: l).length (b :: mm).length - 1)
                (fun j hj => hnull j (by omega))
              rw [scanCoverages_cons_nonempty r (a :: l) (b :: mm) rest
                (by simp) (by simp)]
              simp only [hscan]
              exact ih hrest

theorem scanCoverages_shape (r : Timestamp) :
    ∀ cs : List Json, ∀ v : Option ℚ, ∀ m : Option Timestamp, ∀ t : Timestamp,
      scanCoverages r cs = Except.ok (v, m, t) →
      ((v = none ∧ m = none) ∨ (∃ q s, v = some q ∧ m = some s)) ∧ t = r := by
  intro cs
  induction cs with
  | nil =>
      intro v m t h
      simp only [scanCoverages, Except.ok.injEq, Prod.mk.injEq] at h
      obtain ⟨h1, h2, h3⟩ := h
      exact ⟨Or.inl ⟨h1.symm, h2.symm⟩, h3.symm⟩
  | cons c rest ih =>
      intro v m t h
      cases hcs : coverageSeries c with
      | error e =>
          simp only [scanCoverages, hcs] at h
          exact Except.noConfusion h
      | ok p =>
          obtain ⟨values, times⟩ := p
          cases hskip : (!truthy values || !truthy times) with
          | true =>
              rw [scanCoverages_cons_skip r c rest values times hcs hskip] at h
              exact ih v m t h
          | false =>
              simp only [scanCoverages, hcs] at h
              rw [hskip, if_neg (show ¬(false = true) by decide)] at h
              cases hlv : pyLen values with
              | error e =>
                  simp only [hlv] at h
                  exact Except.noConfusion h
              | ok nv =>
                  simp only [hlv] at h
                  cases hlt : pyLen times with
                  | error e =>
                      simp only [hlt] at h
                      exact Except.noConfusion h
                  | ok nt =>
                      simp only [hlt] at h
                      cases hsi : scanIdx values times (min nv nt - 1) with
                      | error e =>
                          simp only [hsi] at h
                          exact Except.noConfusion h
                      | ok o =>
                          cases o with
                          | none =>
                              simp only [hsi] at h
                              exact ih v m t h
                          | some pr =>
                              obtain ⟨q, tm⟩ := pr
                              simp only [hsi, Except.ok.injEq, Prod.mk.injEq] at h
                              obtain ⟨h1, h2, h3⟩ := h
                              exact ⟨Or.inr ⟨q, tm, h1.symm, h2.symm⟩, h3.symm⟩

theorem parseAndScan_shape (body : Json) (r : Timestamp) (v : Option ℚ)
    (m : Option Timestamp) (t : Timestamp)
    (h : parseAndScan body r = Except.ok (v, m, t)) :
    ((v = none ∧ m = none) ∨ (∃ q s, v = some q ∧ m = some s)) ∧ t = r := by
  cases hg : pyGetD body "coverages" (Json.arr []) with
  | error e =>
      simp only [parseAndScan, hg] at h
      exact Except.noConfusion h
  | ok coverages =>
      simp only [parseAndScan, hg] at h
      cases htr : truthy coverages with
      | false =>
          rw [htr] at h
          rw [if_pos (show (!false) = true by decide)] at h
          simp only [Except.ok.injEq, Prod.mk.injEq] at h
          obtain ⟨h1, h2, h3⟩ := h
          exact ⟨Or.inl ⟨h1.symm, h2.symm⟩, h3.symm⟩
      | true =>
          rw [htr] at h
          rw [if_neg (show ¬((!true) = true) by decide)] at h
          cases hrv : pyReversed coverages with
          | error e =>
              simp only [hrv] at h
              exact Except.noConfusion h
          | ok cs =>
              simp only [hrv] at h
              exact scanCoverages_shape r cs v m t h

-- Theorems for the claims.

/-- C1: for every bearing `d` in `[0, 360)`, `mask_required` returns `true`
iff `EAST_MIN ≤ d ≤ SOUTH_MAX` (the configured 90–180 range). -/
theorem mask_required_threshold_iff (d : ℚ) (h0 : 0 ≤ d) (h360 : d < 360) :
    mask_required (some d) = true ↔ (EAST_MIN ≤ d ∧ d ≤ SOUTH_MAX) := by
  simp only [mask_required, EAST_MIN, SOUTH_MAX]
  by_cases hd : d ≤ 0
  · simp only [hd, if_true, Bool.false_eq_true, false_iff]
    rintro ⟨h1, _⟩
    linarith
  · simp [hd]

theorem mask_required_threshold_iff_witness : mask_required (some 100) = true :=
  (mask_required_threshold_iff 100 (by norm_num) (by norm_num)).mpr
    (by norm_num [EAST_MIN, SOUTH_MAX])

/-- C2: `mask_required` is `false` on an absent input, `false` at `0`, and
`false` for every non-positive input. -/
theorem mask_required_absent_or_nonpositive :
    mask_required none = false ∧ mask_required (some 0) = false ∧
      ∀ d : ℚ, d ≤ 0 → mask_required (some d) = false := by
  refine ⟨rfl, by decide, ?_⟩
  intro d hd
  simp [mask_required, hd]

theorem mask_required_absent_or_nonpositive_witness :
    mask_required (some (-45)) = false :=
  mask_required_absent_or_nonpositive.2.2 (-45) (by norm_num)

/-- C5: with no (or an empty) `KNMI_EDR_TOKEN` secret configured, the fetch
raises the `RuntimeError` of `get_token`, whatever the network would do. -/
theorem get_latest_missing_token_raises (secrets : Secrets)
    (h : secrets.lookup "KNMI_EDR_TOKEN" = none ∨
         secrets.lookup "KNMI_EDR_TOKEN" = some "")
    (location_id : String) (retrieved_at : Timestamp) (net : Request → HttpOutcome) :
    (get_latest_dd_and_measured_time secrets location_id retrieved_at net).1 =
      Except.error (Err.runtimeError
        "KNMI_EDR_TOKEN ontbreekt. Zet die als environment variable in PowerShell.") := by
  rcases h with h | h <;>
    simp [get_latest_dd_and_measured_time, get_token, h, String.isEmpty]

theorem get_latest_missing_token_raises_witness :
    (get_latest_dd_and_measured_time [] "0-20000-0-06240" "t0"
        (fun _ => HttpOutcome.timeout)).1 =
      Except.error (Err.runtimeError
        "KNMI_EDR_TOKEN ontbreekt. Zet die als environment variable in PowerShell.") :=
  get_latest_missing_token_raises [] (Or.inl rfl) "0-20000-0-06240" "t0"
    (fun _ => HttpOutcome.timeout)

/-- C10: with no (or an empty) `KNMI_EDR_TOKEN` secret, the call raises and
the list of issued HTTP requests is empty: the raise happens before the
request is constructed or sent. -/
theorem get_latest_missing_token_no_request (secrets : Secrets)
    (h : secrets.lookup "KNMI_EDR_TOKEN" = none ∨
         secrets.lookup "KNMI_EDR_TOKEN" = some "")
    (location_id : String) (retrieved_at : Timestamp) (net : Request → HttpOutcome) :
    (get_latest_dd_and_measured_time secrets location_id retrieved_at net).2 = [] ∧
      ∃ e, (get_latest_dd_and_measured_time secrets location_id retrieved_at net).1 =
        Except.error e := by
  rcases h with h | h <;>
    simp [get_latest_dd_and_measured_time, get_token, h, String.isEmpty]

theorem get_latest_missing_token_no_request_witness :
    (get_latest_dd_and_measured_time [("OTHER_KEY", "x")] "0-20000-0-06240" "t1"
        (fun _ => HttpOutcome.response 200 (Json.obj []))).2 = [] ∧
      ∃ e, (get_latest_dd_and_measured_time [("OTHER_KEY", "x")] "0-20000-0-06240" "t1"
        (fun _ => HttpOutcome.response 200 (Json.obj []))).1 = Except.error e :=
  get_latest_missing_token_no_request [("OTHER_KEY", "x")] (Or.inl rfl)
    "0-20000-0-06240" "t1" (fun _ => HttpOutcome.response 200 (Json.obj []))

/-- C7 counterexample: a `304` response is not 2xx, yet
`raise_for_status` does not raise (it raises only on 4xx/5xx), so the fetch
returns a normal result instead of failing. -/
theorem get_latest_non2xx_no_error :
    (get_latest_dd_and_measured_time [("KNMI_EDR_TOKEN", "tok")] "0-20000-0-06240" "t0"
        (fun _ => HttpOutcome.response 304 (Json.obj []))).1 =
      Except.ok (none, none, "t0") := by
  rfl

/-- C7 amended: on a 4xx or 5xx HTTP status the fetch fails with the HTTP
error, on a timeout it fails with the timeout error (propagated, not
retried — the call issues no further request), and every request it issues
carries the fixed `timeout=30` bound. -/
theorem get_latest_http_failure (secrets : Secrets) (tok : String)
    (htok : get_token secrets = Except.ok tok)
    (location_id : String) (retrieved_at : Timestamp) :
    (∀ status body, 400 ≤ status → status ≤ 599 →
        (get_latest_dd_and_measured_time secrets location_id retrieved_at
            (fun _ => HttpOutcome.response status body)).1 =
          Except.error (Err.httpError status)) ∧
    (get_latest_dd_and_measured_time secrets location_id retrieved_at
        (fun _ => HttpOutcome.timeout)).1 = Except.error Err.timeoutError ∧
    (∀ net : Request → HttpOutcome,
        (get_latest_dd_and_measured_time secrets location_id retrieved_at net).2.length ≤ 1 ∧
        ∀ req ∈ (get_latest_dd_and_measured_time secrets location_id retrieved_at net).2,
          req.timeoutSeconds = 30) := by
  refine ⟨?_, ?_, ?_⟩
  · intro status body h4 h5
    simp [get_latest_dd_and_measured_time, htok, raise_for_status, h4, h5]
  · simp [get_latest_dd_and_measured_time, htok]
  · intro net
    simp only [get_latest_dd_and_measured_time, htok]
    cases net ⟨location_id, tok, 30⟩ with
    | timeout => simp
    | response status body =>
        cases h : raise_for_status status with
        | error e => simp [h]
        | ok u => simp [h]

theorem get_latest_http_failure_witness :
    (get_latest_dd_and_measured_time [("KNMI_EDR_TOKEN", "tok")] "0-20000-0-06240" "t0"
        (fun _ => HttpOutcome.timeout)).1 = Except.error Err.timeoutError :=
  (get_latest_http_failure [("KNMI_EDR_TOKEN", "tok")] "tok" rfl
      "0-20000-0-06240" "t0").2.1

theorem get_latest_ok_step (secrets : Secrets) (tok : String)
    (htok : get_token secrets = Except.ok tok) (location_id : String)
    (retrieved_at : Timestamp) (status : Nat) (body : Json)
    (hst : ¬(400 ≤ status ∧ status ≤ 599)) :
    (get_latest_dd_and_measured_time secrets location_id retrieved_at
        (fun _ => HttpOutcome.response status body)).1 =
      parseAndScan body retrieved_at := by
  simp only [get_latest_dd_and_measured_time, htok, raise_for_status]
  rw [if_neg hst]

theorem parseAndScan_obj_coverages (L : List Json) (r : Timestamp) (hL : L ≠ []) :
    parseAndScan (Json.obj [("coverages", Json.arr L)]) r = scanCoverages r L.reverse := by
  obtain ⟨c, rest, rfl⟩ := List.exists_cons_of_ne_nil hL
  simp [parseAndScan, pyGetD, List.lookup, truthy, pyReversed]

/-- C3: on a well-formed single-coverage payload whose dd series is null at
every index after `k` and holds the number `q` at `k` (with the time axis
holding the string `s` there), the fetch skips the null readings and
returns `q` paired with the normalised timestamp of index `k` — the latest
non-null observation, not the nulled most-recent one. -/
theorem get_latest_returns_latest_nonnull (secrets : Secrets) (tok : String)
    (htok : get_token secrets = Except.ok tok) (location_id : String)
    (retrieved_at : Timestamp) (vs ts : List Json) (k : Nat) (q : ℚ) (s : String)
    (hlen : ts.length = vs.length) (hk : k < vs.length)
    (hvk : vs[k]? = some (Json.num q)) (hts : ts[k]? = some (Json.str s))
    (hafter : ∀ j, k < j → j < vs.length → vs[j]? = some Json.null) :
    (get_latest_dd_and_measured_time secrets location_id retrieved_at
        (fun _ => HttpOutcome.response 200 (mkPayload [(vs, ts)]))).1 =
      Except.ok (some q, some (fromisoformat (s.replace "Z" "+00:00")), retrieved_at) := by
  rw [get_latest_ok_step secrets tok htok location_id retrieved_at 200 _ (by omega)]
  have hvne : vs ≠ [] := by
    intro hc
    rw [hc] at hk
    simp at hk
  have htne : ts ≠ [] := by
    intro hc
    rw [hc] at hlen
    simp at hlen
    omega
  have hL : parseAndScan (mkPayload [(vs, ts)]) retrieved_at =
      scanCoverages retrieved_at [mkCoverage vs ts] := by
    rw [show mkPayload [(vs, ts)] = Json.obj [("coverages", Json.arr [mkCoverage vs ts])] from rfl]
    rw [parseAndScan_obj_coverages [mkCoverage vs ts] retrieved_at (by simp)]
    simp
  rw [hL, scanCoverages_cons_nonempty retrieved_at vs ts [] hvne htne]
  have hmin : min vs.length ts.length = vs.length := by
    rw [hlen, Nat.min_self]
  rw [hmin]
  have hscan := scanIdx_finds vs ts k q s hvk hts (vs.length - 1) (by omega)
    (fun j h1 h2 => hafter j h1 (by omega))
  simp only [hscan]

theorem get_latest_returns_latest_nonnull_witness :
    (get_latest_dd_and_measured_time [("KNMI_EDR_TOKEN", "tok")] "0-20000-0-06240" "t0"
        (fun _ => HttpOutcome.response 200 (mkPayload
          [([Json.num 120, Json.num 130, Json.null],
            [Json.str "T1Z", Json.str "T2Z", Json.str "T3Z"])]))).1 =
      Except.ok (some 130, some (fromisoformat ("T2Z".replace "Z" "+00:00")), "t0") :=
  get_latest_returns_latest_nonnull [("KNMI_EDR_TOKEN", "tok")] "tok" rfl
    "0-20000-0-06240" "t0"
    [Json.num 120, Json.num 130, Json.null]
    [Json.str "T1Z", Json.str "T2Z", Json.str "T3Z"]
    1 130 "T2Z" rfl (by decide) rfl rfl
    (by
      intro j h1 h2
      have h3 : j = 2 := by
        simp only [List.length_cons, List.length_nil] at h2
        omega
      subst h3
      rfl)

/-- C4: on a payload whose coverages list is empty, and more generally on
any well-formed payload none of whose coverages holds a non-null dd value
at an index where a matching time exists, the fetch returns the data-absent
triple `(none, none, retrieved_at)` without raising. -/
theorem get_latest_data_absent (secrets : Secrets) (tok : String)
    (htok : get_token secrets = Except.ok tok) (location_id : String)
    (retrieved_at : Timestamp) (covs : List (List Json × List Json))
    (habsent : ∀ p ∈ covs, ∀ i, i < min p.1.length p.2.length →
      p.1[i]? = some Json.null) :
    (get_latest_dd_and_measured_time secrets location_id retrieved_at
        (fun _ => HttpOutcome.response 200 (mkPayload covs))).1 =
      Except.ok (none, none, retrieved_at) := by
  rw [get_latest_ok_step secrets tok htok location_id retrieved_at 200 _ (by omega)]
  cases covs with
  | nil => rfl
  | cons p rest =>
      rw [show mkPayload (p :: rest) =
        Json.obj [("coverages", Json.arr ((p :: rest).map fun x => mkCoverage x.1 x.2))]
        from rfl]
      rw [parseAndScan_obj_coverages _ retrieved_at (by simp)]
      apply scanCoverages_all_null_of
      intro c hc
      rw [List.mem_reverse] at hc
      obtain ⟨x, hx, rfl⟩ := List.mem_map.mp hc
      exact ⟨x.1, x.2, rfl, fun i hi => habsent x hx i hi⟩

theorem get_latest_data_absent_witness :
    (get_latest_dd_and_measured_time [("KNMI_EDR_TOKEN", "tok")] "0-20000-0-06240" "t0"
        (fun _ => HttpOutcome.response 200 (mkPayload []))).1 =
      Except.ok (none, none, "t0") :=
  get_latest_data_absent [("KNMI_EDR_TOKEN", "tok")] "tok" rfl "0-20000-0-06240" "t0"
    [] (by intro p hp; simp at hp)

/-- C8: whatever the secrets, payload and network behaviour, a returned
triple has its value and measured-at components present or absent together,
and always carries the `retrieved_at` of the call. -/
theorem get_latest_value_iff_measured (secrets : Secrets) (location_id : String)
    (retrieved_at : Timestamp) (net : Request → HttpOutcome) (v : Option ℚ)
    (m : Option Timestamp) (t : Timestamp)
    (h : (get_latest_dd_and_measured_time secrets location_id retrieved_at net).1 =
      Except.ok (v, m, t)) :
    ((v = none ∧ m = none) ∨ (∃ q s, v = some q ∧ m = some s)) ∧ t = retrieved_at := by
  cases hg : get_token secrets with
  | error e =>
      simp only [get_latest_dd_and_measured_time, hg] at h
      exact Except.noConfusion h
  | ok tok =>
      simp only [get_latest_dd_and_measured_time, hg] at h
      cases hnet : net ⟨location_id, tok, 30⟩ with
      | timeout =>
          simp only [hnet] at h
          exact Except.noConfusion h
      | response status body =>
          simp only [hnet] at h
          cases hrs : raise_for_status status with
          | error e =>
              simp only [hrs] at h
              exact Except.noConfusion h
          | ok u =>
              simp only [hrs] at h
              exact parseAndScan_shape body retrieved_at v m t h

theorem get_latest_value_iff_measured_witness :
    (((none : Option ℚ) = none ∧ (none : Option Timestamp) = none) ∨
      (∃ q s, (none : Option ℚ) = some q ∧ (none : Option Timestamp) = some s)) ∧
      ("t0" : Timestamp) = "t0" :=
  get_latest_value_iff_measured [("KNMI_EDR_TOKEN", "x")] "0-20000-0-06240" "t0"
    (fun _ => HttpOutcome.response 200 (mkPayload []))
    none none "t0" (by rfl)

/-- C9: the fetch never raises an index error (the backward scan starts at
`min(len(values), len(times)) - 1` and only moves down); a backward scan
started below both lengths never raises an index error; and a coverage
whose values list or times list is empty is skipped, not an error. -/
theorem scan_within_bounds :
    (∀ (secrets : Secrets) (location_id : String) (retrieved_at : Timestamp)
        (net : Request → HttpOutcome),
        (get_latest_dd_and_measured_time secrets location_id retrieved_at net).1 ≠
          Except.error Err.indexError) ∧
    (∀ vs ts : List Json, ∀ i, i < min vs.length ts.length →
        scanIdx (Json.arr vs) (Json.arr ts) i ≠ Except.error Err.indexError) ∧
    (∀ (r : Timestamp) (vs ts : List Json) (rest : List Json), vs = [] ∨ ts = [] →
        scanCoverages r (mkCoverage vs ts :: rest) = scanCoverages r rest) := by
  refine ⟨?_, ?_, ?_⟩
  · intro secrets location_id retrieved_at net
    cases hg : get_token secrets with
    | error e =>
        have he := get_token_error secrets e hg
        subst he
        simp [get_latest_dd_and_measured_time, hg]
    | ok tok =>
        cases hnet : net ⟨location_id, tok, 30⟩ with
        | timeout => simp [get_latest_dd_and_measured_time, hg, hnet]
        | response status body =>
            cases hrs : raise_for_status status with
            | error e =>
                have he := raise_for_status_error status e hrs
                subst he
                simp [get_latest_dd_and_measured_time, hg, hnet, hrs]
            | ok u =>
                have hstep : (get_latest_dd_and_measured_time secrets location_id
                    retrieved_at net).1 = parseAndScan body retrieved_at := by
                  simp [get_latest_dd_and_measured_time, hg, hnet, hrs]
                rw [hstep]
                exact parseAndScan_ne_index_error body retrieved_at
  · intro vs ts i hi
    exact scanIdx_ne_index_error (Json.arr vs) (Json.arr ts) vs.length ts.length
      rfl rfl i (by omega) (by omega)
  · intro r vs ts rest h
    exact scanCoverages_skip_empty r vs ts rest h

theorem scan_within_bounds_witness :
    scanCoverages "t0" [mkCoverage [] [Json.str "x"]] = scanCoverages "t0" [] :=
  scan_within_bounds.2.2 "t0" [] [Json.str "x"] [] (Or.inl rfl)

/-- C6: payloads with a missing key are tolerated without raising: a body
whose object lacks the `coverages` key yields the data-absent triple, and
so does a coverages list each of whose entries lacks one of the keys
`ranges`, `dd`, `values`/`data`, `domain`, `axes`, `t`, or the `t` values —
each missing key defaults to an empty container and the entry is skipped. -/
theorem get_latest_missing_keys_tolerated (secrets : Secrets) (tok : String)
    (htok : get_token secrets = Except.ok tok) (location_id : String)
    (retrieved_at : Timestamp) :
    (∀ fs : List (String × Json), fs.lookup "coverages" = none →
        (get_latest_dd_and_measured_time secrets location_id retrieved_at
            (fun _ => HttpOutcome.response 200 (Json.obj fs))).1 =
          Except.ok (none, none, retrieved_at)) ∧
    (∀ ms : List (MissingKey × List Json × List Json),
        (get_latest_dd_and_measured_time secrets location_id retrieved_at
            (fun _ => HttpOutcome.response 200
              (Json.obj [("coverages",
                Json.arr (ms.map fun p => mkCoverageMissing p.1 p.2.1 p.2.2))]))).1 =
          Except.ok (none, none, retrieved_at)) := by
  have hmap : ∀ l : List (MissingKey × List Json × List Json),
      scanCoverages retrieved_at (l.map fun p => mkCoverageMissing p.1 p.2.1 p.2.2) =
        Except.ok (none, none, retrieved_at) := by
    intro l
    induction l with
    | nil => rfl
    | cons x xs ih =>
        rw [List.map_cons, scanCoverages_cons_missing]
        exact ih
  constructor
  · intro fs hfs
    rw [get_latest_ok_step secrets tok htok location_id retrieved_at 200 _ (by omega)]
    simp [parseAndScan, pyGetD, hfs, truthy]
  · intro ms
    rw [get_latest_ok_step secrets tok htok location_id retrieved_at 200 _ (by omega)]
    cases ms with
    | nil => rfl
    | cons p rest =>
        rw [parseAndScan_obj_coverages _ retrieved_at (by simp)]
        rw [← List.map_reverse]
        exact hmap (p :: rest).reverse

theorem get_latest_missing_keys_tolerated_witness :
    (get_latest_dd_and_measured_time [("KNMI_EDR_TOKEN", "k")] "0-20000-0-06240" "t0"
        (fun _ => HttpOutcome.response 200
          (Json.obj [("coverages",
            Json.arr ([(MissingKey.rangesKey, ([] : List Json), [Json.str "T"])].map
              fun p => mkCoverageMissing p.1 p.2.1 p.2.2))]))).1 =
      Except.ok (none, none, "t0") :=
  (get_latest_missing_keys_tolerated [("KNMI_EDR_TOKEN", "k")] "k" rfl
      "0-20000-0-06240" "t0").2 [(MissingKey.rangesKey, [], [Json.str "T"])]
